import Mathlib

/-!
Verification development for the Exeventis event-sourcing core.

This file gives a shallow embedding of the parts of the repository that the
frozen claims are about:

- src/src/exeventis/aggregate.py : the event capture protocol (the event
  decorator wrapper, AggregateMeta.__call__), Event.mutate, Priority.get_key,
  Aggregate.collect and Aggregate.__eq__;
- src/src/exeventis/reconstructor.py : StandartReconstructor.reconstruct;
- src/src/exeventis/recorders/memory.py : LimitedOrderedDict and
  EventAggregateMemory.get;
- src/src/exeventis/recorder_store.py : RecorderStore.save and get;
- src/src/exeventis/application.py : Application.save and get.

Conventions of the embedding: UUIDs and datetimes are modelled as natural
numbers, Python exceptions as the inductive type PyExc, fallible code as
Except, and a generic aggregate class as a pair of type parameters sigma
(the domain attribute state written by the methods of the class) and pi
(the bound-parameter payload of one event, with the optional explicit
timestamp parameter already split off, exactly as the wrapper pops it from
the bound arguments).  Mutating method bodies are domain state transformers
that may raise; the instance dictionary of an aggregate is the record
AggregateRec, in which the field _last_update_date is an Option so that a
missing attribute (never assigned) is distinguishable from an assigned one,
since Aggregate.__eq__ compares the whole attribute dictionary.
-/

namespace Exeventis

/-- Python exception values that the embedded code can raise.  The
constructor recorderSavingError carries the original cause, modelling
raise RecorderSavingError from e. -/
inductive PyExc where
  | runtimeError
  | typeError
  | valueError
  | keyError
  | aggregateNotFoundError
  | notAnAggregateError
  | reconstructionError
  | recorderSavingError (cause : PyExc)
  | otherExc (code : Nat)
deriving DecidableEq, Repr

/-- Whether an exception is caught by an except RuntimeError clause. -/
def PyExc.isRuntimeError : PyExc → Bool
  | .runtimeError => true
  | _ => false

instance {ε α : Type} [DecidableEq ε] [DecidableEq α] : DecidableEq (Except ε α) :=
  fun x y =>
    match x, y with
    | .ok a, .ok b =>
      if h : a = b then isTrue (by rw [h])
      else isFalse (fun hc => h (by injection hc))
    | .error a, .error b =>
      if h : a = b then isTrue (by rw [h])
      else isFalse (fun hc => h (by injection hc))
    | .ok _, .error _ => isFalse (fun hc => Except.noConfusion hc)
    | .error _, .ok _ => isFalse (fun hc => Except.noConfusion hc)

/-- An Event as in class Event of aggregate.py: name, aggregate type tag,
payload, timestamp, version and originator id. -/
structure EventRec (π : Type) where
  name : String
  type_ : String
  event_kwargs : π
  timestamp : Nat
  version : Nat
  originator_id : Nat
deriving DecidableEq, Repr

/-- The instance dictionary of an aggregate of one concrete class.  The
field domain holds the attributes written by the class methods; the
framework fields mirror _unsaved_event_list, _version, _id and
_last_update_date of class Aggregate.  _last_update_date is none while the
attribute has never been assigned (it is not set by __call__ of the
metaclass, only by the event wrapper), which matters because
Aggregate.__eq__ compares the full attribute dictionaries. -/
structure AggregateRec (σ π : Type) where
  _unsaved_event_list : List (EventRec π)
  _version : Nat
  _id : Nat
  _last_update_date : Option Nat
  domain : σ
deriving DecidableEq, Repr

/-- The body of a registered mutator: the original undecorated method as a
transformer of the domain attributes, which may raise. -/
def Body (σ π : Type) : Type := σ → π → Except Unit σ

/-- AggregateMeta._event_function_registry: (class name, event name) to the
original undecorated method. -/
def EventFunctionRegistry (σ π : Type) : Type := String → String → Option (Body σ π)

/-- AggregateMeta._class_registry, reduced to membership of a class name. -/
def ClassRegistry : Type := String → Bool

/-- Aggregate.collect: returns the unsaved event list and clears it. -/
def Aggregate.collect (a : AggregateRec σ π) : List (EventRec π) × AggregateRec σ π :=
  (a._unsaved_event_list, { a with _unsaved_event_list := [] })

/-- One invocation of a decorated mutating method: its event name, the
original body, the optional explicit timestamp argument (the wrapper pops a
timestamp key out of the bound arguments), the clock value used when no
explicit timestamp is given, and the remaining bound-parameter payload. -/
structure Op (σ π : Type) where
  name : String
  body : Body σ π
  explicit_timestamp : Option Nat
  now : Nat
  payload : π

/-- The wrapper installed by the event decorator (aggregate.py lines
184-209): compute the timestamp, increment _version, set
_last_update_date, append the new Event to the unsaved list, then run the
original method body.  The Bool records whether the body returned normally;
the buffered event is kept even when the body raises, as in the source. -/
def event_wrapper (type_ : String) (op : Op σ π) (a : AggregateRec σ π) :
    AggregateRec σ π × Bool :=
  let timestamp := op.explicit_timestamp.getD op.now
  let new_event : EventRec π :=
    { name := op.name, type_ := type_, event_kwargs := op.payload,
      timestamp := timestamp, version := a._version + 1, originator_id := a._id }
  let a1 : AggregateRec σ π :=
    { a with _version := a._version + 1, _last_update_date := some timestamp,
             _unsaved_event_list := a._unsaved_event_list ++ [new_event] }
  match op.body a1.domain op.payload with
  | .ok s => ({ a1 with domain := s }, true)
  | .error _ => (a1, false)

/-- AggregateMeta.__call__ for a class whose __init__ is decorated: create
the bare instance with an empty unsaved list, _version 0 and a fresh id
(and no _last_update_date attribute), then run the decorated __init__,
which emits the construction event through the wrapper.  The pre-init
domain value sigma0 stands for the attribute-less fresh object; a faithful
constructor body overwrites it without reading it. -/
def AggregateMeta.call_event_init (type_ : String) (σ0 : σ) (freshId : Nat)
    (initOp : Op σ π) : AggregateRec σ π × Bool :=
  let inst0 : AggregateRec σ π :=
    { _unsaved_event_list := [], _version := 0, _id := freshId,
      _last_update_date := none, domain := σ0 }
  event_wrapper type_ initOp inst0

/-- Run a sequence of decorated method invocations, keeping the conjunction
of the per-call body success flags. -/
def run_ops (type_ : String) (ops : List (Op σ π)) (p : AggregateRec σ π × Bool) :
    AggregateRec σ π × Bool :=
  ops.foldl
    (fun q op =>
      let r := event_wrapper type_ op q.1
      (r.1, q.2 && r.2))
    p

/-- A freshly constructed aggregate followed by a sequence of mutating
operations; the Bool is true when the construction body and every method
body returned normally (the sequence was accepted). -/
def live_run (type_ : String) (σ0 : σ) (freshId : Nat) (initOp : Op σ π)
    (ops : List (Op σ π)) : AggregateRec σ π × Bool :=
  run_ops type_ ops (AggregateMeta.call_event_init type_ σ0 freshId initOp)

/-- The current value of the __init__ attribute of the aggregate class:
either whatever it originally was, or the registered constructor mutator
that Event.mutate installs while replaying a construction event. -/
inductive InitAttr where
  | originalInit
  | registeredFunc (type_ : String) (name : String)
deriving DecidableEq, Repr

/-- Event.mutate (aggregate.py lines 247-278).  Looks the mutator up in the
registry; with an aggregate present it applies the body to the domain
attributes and assigns the version of the event (note that it never touches
_last_update_date); with no aggregate it looks the class up, swaps its
__init__ for the registered function, constructs through the metaclass,
overwrites the fresh id with the originator id, restores __init__ and
assigns the version.  When the constructor body raises, the line restoring
__init__ is never reached, so the class keeps the registered function as
its __init__.  The InitAttr component is the value of the class __init__
attribute after the call. -/
def Event.mutate (reg : EventFunctionRegistry σ π) (creg : ClassRegistry) (σ0 : σ)
    (freshId : Nat) (e : EventRec π) (aggregate : Option (AggregateRec σ π))
    (ia : InitAttr) : Except PyExc (AggregateRec σ π) × InitAttr :=
  match reg e.type_ e.name with
  | none => (.error .keyError, ia)
  | some func =>
    match aggregate with
    | some a =>
      match func a.domain e.event_kwargs with
      | .ok s => (.ok { a with domain := s, _version := e.version }, ia)
      | .error _ => (.error (.otherExc 0), ia)
    | none =>
      if creg e.type_ then
        let inst0 : AggregateRec σ π :=
          { _unsaved_event_list := [], _version := 0, _id := freshId,
            _last_update_date := none, domain := σ0 }
        match func inst0.domain e.event_kwargs with
        | .error _ => (.error (.otherExc 0), .registeredFunc e.type_ e.name)
        | .ok s =>
          let inst1 := { inst0 with domain := s, _id := e.originator_id }
          (.ok { inst1 with _version := e.version }, ia)
      else (.error .keyError, ia)

/-- Replay a list of events by folding Event.mutate from no aggregate, as
test_state_rehydration_from_history does; the first exception propagates. -/
def replay_go (reg : EventFunctionRegistry σ π) (creg : ClassRegistry) (σ0 : σ)
    (freshId : Nat) :
    List (EventRec π) → Option (AggregateRec σ π) → InitAttr →
      Except PyExc (Option (AggregateRec σ π)) × InitAttr
  | [], acc, ia => (.ok acc, ia)
  | e :: rest, acc, ia =>
    match Event.mutate reg creg σ0 freshId e acc ia with
    | (.ok a, ia2) => replay_go reg creg σ0 freshId rest (some a) ia2
    | (.error exc, ia2) => (.error exc, ia2)

/-- Reconstruction of an aggregate from a collected event list, starting
from no aggregate and with the class __init__ in its original state. -/
def replay_events (reg : EventFunctionRegistry σ π) (creg : ClassRegistry) (σ0 : σ)
    (freshId : Nat) (events : List (EventRec π)) :
    Except PyExc (Option (AggregateRec σ π)) × InitAttr :=
  replay_go reg creg σ0 freshId events none .originalInit

/-- An aggregate with its unsaved list cleared and the _last_update_date
attribute removed; used to compare a replayed aggregate with the live one. -/
def scrub (a : AggregateRec σ π) : AggregateRec σ π :=
  { a with _unsaved_event_list := [], _last_update_date := none }

/-- Lexicographic order on the pairs returned by Priority.get_key: Python
compares key tuples componentwise, first component first. -/
def lexNatLe (p q : Nat × Nat) : Prop :=
  p.1 < q.1 ∨ (p.1 = q.1 ∧ p.2 ≤ q.2)

/-- Strict lexicographic comparison of key pairs, as used by max when it
decides whether a later element strictly beats the current best. -/
def lexNatLt (p q : Nat × Nat) : Prop :=
  p.1 < q.1 ∨ (p.1 = q.1 ∧ p.2 < q.2)

instance : DecidableRel lexNatLe := fun p q => by
  unfold lexNatLe; infer_instance

instance : DecidableRel lexNatLt := fun p q => by
  unfold lexNatLt; infer_instance

/-- The Priority enum of aggregate.py. -/
inductive Priority where
  | version
  | timestamp
deriving DecidableEq, Repr

/-- Priority.get_key specialised to Event: (version, timestamp) under
version priority and (timestamp, version) under timestamp priority. -/
def Priority.get_key_event : Priority → EventRec π → Nat × Nat
  | .version, e => (e.version, e.timestamp)
  | .timestamp, e => (e.timestamp, e.version)

/-- Priority.get_key specialised to Aggregate: (_version,
_last_update_date) under version priority and the swapped pair under
timestamp priority.  Reading _last_update_date is modelled with a default
because the snapshots this key is applied to are saved live aggregates,
which always carry the attribute. -/
def Priority.get_key_aggregate : Priority → AggregateRec σ π → Nat × Nat
  | .version, a => (a._version, a._last_update_date.getD 0)
  | .timestamp, a => (a._last_update_date.getD 0, a._version)

/-- The event ordering induced by a priority key, used by list.sort. -/
def event_le (pr : Priority) (a b : EventRec π) : Prop :=
  lexNatLe (pr.get_key_event a) (pr.get_key_event b)

instance (pr : Priority) : DecidableRel (@event_le π pr) := fun a b => by
  unfold event_le; infer_instance

instance (pr : Priority) : IsTotal (EventRec π) (event_le pr) := by
  constructor
  intro a b
  unfold event_le lexNatLe
  rcases Nat.lt_trichotomy (pr.get_key_event a).1 (pr.get_key_event b).1 with h | h | h
  · exact Or.inl (Or.inl h)
  · rcases Nat.le_total (pr.get_key_event a).2 (pr.get_key_event b).2 with h2 | h2
    · exact Or.inl (Or.inr ⟨h, h2⟩)
    · exact Or.inr (Or.inr ⟨h.symm, h2⟩)
  · exact Or.inr (Or.inl h)

instance (pr : Priority) : IsTrans (EventRec π) (event_le pr) := by
  constructor
  intro a b c hab hbc
  unfold event_le lexNatLe at *
  rcases hab with h1 | ⟨h1, h1b⟩
  · rcases hbc with h2 | ⟨h2, _⟩
    · exact Or.inl (h1.trans h2)
    · exact Or.inl (h2 ▸ h1)
  · rcases hbc with h2 | ⟨h2, h2b⟩
    · exact Or.inl (h1 ▸ h2)
    · exact Or.inr ⟨h1.trans h2, h1b.trans h2b⟩

/-- The effective sorting priority of a reconstruct call: the priority
argument when given (Priority members are truthy), else the default the
reconstructor was built with (its base class default is Priority.version). -/
def effective_priority (self_priority : Priority) (priority : Option Priority) : Priority :=
  priority.getD self_priority

/-- The event application loop of StandartReconstructor.reconstruct: fold
Event.mutate over the sorted events; any exception from lookup or
application is caught by the bare except clause and turned into
ReconstructionError, aborting the fold. -/
def reconstruct_fold (reg : EventFunctionRegistry σ π) (creg : ClassRegistry) (σ0 : σ)
    (freshId : Nat) :
    List (EventRec π) → Option (AggregateRec σ π) → InitAttr →
      Except PyExc (Option (AggregateRec σ π)) × InitAttr
  | [], acc, ia => (.ok acc, ia)
  | e :: rest, acc, ia =>
    match Event.mutate reg creg σ0 freshId e acc ia with
    | (.ok a, ia2) => reconstruct_fold reg creg σ0 freshId rest (some a) ia2
    | (.error _, ia2) => (.error .reconstructionError, ia2)

/-- StandartReconstructor.reconstruct (reconstructor.py lines 24-62): sort
list_event in place by the chosen priority key, then fold Event.mutate over
it.  The first component of the result is the final contents of the list
object passed by the caller, i.e. the sorted list, which is produced before
the fold runs and therefore also when the fold raises.  list.sort is a
stable sort, modelled by insertion sort over the key order. -/
def StandartReconstructor.reconstruct (reg : EventFunctionRegistry σ π)
    (creg : ClassRegistry) (σ0 : σ) (freshId : Nat) (self_priority : Priority)
    (list_event : List (EventRec π)) (aggregate : Option (AggregateRec σ π))
    (priority : Option Priority) (ia : InitAttr) :
    List (EventRec π) × (Except PyExc (Option (AggregateRec σ π)) × InitAttr) :=
  let sorted_list :=
    List.insertionSort (event_le (effective_priority self_priority priority)) list_event
  (sorted_list, reconstruct_fold reg creg σ0 freshId sorted_list aggregate ia)

/-- LimitedOrderedDict (memory.py lines 135-203).  The OrderedDict is
modelled as an association list whose front is the least recently touched
key; max_size and current_size are copied from the source. -/
structure LimitedOrderedDict (K V : Type) where
  data : List (K × List V)
  max_size : Nat
  current_size : Nat
deriving DecidableEq, Repr

/-- The constructor of LimitedOrderedDict with a given max_size. -/
def LimitedOrderedDict.new (K V : Type) (max_size : Nat) : LimitedOrderedDict K V :=
  { data := [], max_size := max_size, current_size := 0 }

/-- Number of values stored in an association list of value lists. -/
def items_sum (d : List (K × List V)) : Nat :=
  (d.map (fun p => p.2.length)).sum

/-- Total number of stored values across all keys. -/
def LimitedOrderedDict.total_items (s : LimitedOrderedDict K V) : Nat :=
  items_sum s.data

/-- The first half of add: pop the existing list for the key (or start an
empty one), append the value, and reinsert the key at the back, which marks
it most recently touched. -/
def LimitedOrderedDict.move_append [DecidableEq K] (s : LimitedOrderedDict K V)
    (key : K) (value : V) : List (K × List V) :=
  let value_list := ((s.data.find? (fun p => p.1 == key)).map Prod.snd).getD []
  let rest := s.data.filter (fun p => !(p.1 == key))
  rest ++ [(key, value_list ++ [value])]

/-- LimitedOrderedDict.add (memory.py lines 176-186): append under the key,
refresh its recency, then, when max_size equals current_size + 1, call pop,
which performs popitem(last=False) and so drops the whole front entry; in
that branch current_size is not incremented, and pop never decrements it. -/
def LimitedOrderedDict.add [DecidableEq K] (s : LimitedOrderedDict K V)
    (key : K) (value : V) : LimitedOrderedDict K V :=
  let d := s.move_append key value
  if s.max_size = s.current_size + 1 then
    { s with data := d.tail }
  else
    { s with data := d, current_size := s.current_size + 1 }

/-- LimitedOrderedDict.get (memory.py lines 188-189): the body is
return self.data.get(key, default=default).  CPython dict.get has the
positional-only signature get(self, key, default=None, /), so passing
default by keyword raises TypeError before any lookup happens; this call
therefore raises TypeError unconditionally. -/
def LimitedOrderedDict.get (s : LimitedOrderedDict K V) (key : K)
    (default : Option (List V)) : Except PyExc (Option (List V)) :=
  Except.error .typeError

/-- A sequence of add calls starting from a given cache state. -/
def LimitedOrderedDict.add_all [DecidableEq K] (s : LimitedOrderedDict K V)
    (kvs : List (K × V)) : LimitedOrderedDict K V :=
  kvs.foldl (fun s p => s.add p.1 p.2) s

/-- The invariant maintained by add on a cache built with max_size at
least 1: every stored entry has a nonempty value list, the item total is
bounded by the running counter, and the counter stays strictly below
max_size. -/
def GoodState (s : LimitedOrderedDict K V) : Prop :=
  (∀ p ∈ s.data, p.2 ≠ []) ∧ items_sum s.data ≤ s.current_size
    ∧ s.current_size + 1 ≤ s.max_size

/-- Python max over an optional list with a key function: iterating None
raises TypeError, an empty sequence raises ValueError, otherwise the first
element with the maximal key is returned (a later element replaces the
current best only when its key is strictly greater). -/
def pyMax (key : α → Nat × Nat) : Option (List α) → Except PyExc α
  | none => .error .typeError
  | some [] => .error .valueError
  | some (x :: xs) =>
    .ok (xs.foldl (fun best y => if lexNatLt (key best) (key y) then y else best) x)

/-- A list comprehension over a value that may be None: iterating None
raises TypeError, otherwise the list is filtered. -/
def opt_filter (p : α → Bool) : Option (List α) → Except PyExc (List α)
  | none => .error .typeError
  | some l => .ok (l.filter p)

/-- Truthiness of an optional int parameter: None and 0 are falsy. -/
def int_truthy : Option Nat → Bool
  | none => false
  | some n => n != 0

/-- Truthiness of an optional datetime parameter: datetime objects are
truthy, None is falsy. -/
def datetime_truthy : Option Nat → Bool
  | none => false
  | some _ => true

/-- Falsiness of a fetched Optional list: None and the empty list. -/
def list_falsy : Option (List α) → Bool
  | none => true
  | some l => l.isEmpty

/-- The stores of EventAggregateMemory: snapshots and events, each a
LimitedOrderedDict keyed by originator id. -/
structure EventAggregateMemory (σ π : Type) where
  snapshots : LimitedOrderedDict Nat (AggregateRec σ π)
  events : LimitedOrderedDict Nat (EventRec π)

/-- EventAggregateMemory.get (memory.py lines 246-298), translated line by
line: fetch snapshots and events through LimitedOrderedDict.get, return the
default when both are falsy, filter the snapshots by max_version and
max_timestamp, pick the best snapshot with max under the priority key,
keep only events strictly newer in both version and timestamp, and
reconstruct.  Because LimitedOrderedDict.get raises TypeError on every
call, the first fetch already raises, and with that repaired the max call
would still raise on an absent or fully filtered snapshot list. -/
def EventAggregateMemory.get (reg : EventFunctionRegistry σ π) (creg : ClassRegistry)
    (σ0 : σ) (freshId : Nat) (m : EventAggregateMemory σ π) (originator_id : Nat)
    (max_version : Option Nat) (max_timestamp : Option Nat)
    (default : Option (AggregateRec σ π)) (priority : Priority) (ia : InitAttr) :
    Except PyExc (Option (AggregateRec σ π)) := do
  let snapshots ← LimitedOrderedDict.get m.snapshots originator_id none
  let events ← LimitedOrderedDict.get m.events originator_id none
  if list_falsy events && list_falsy snapshots then
    return default
  let snapshots ←
    if int_truthy max_version then do
      let l ← opt_filter (fun s => decide (s._version ≤ max_version.getD 0)) snapshots
      pure (some l)
    else pure snapshots
  let snapshots ←
    if datetime_truthy max_timestamp then do
      let l ← opt_filter
        (fun s => decide (s._last_update_date.getD 0 ≤ max_timestamp.getD 0)) snapshots
      pure (some l)
    else pure snapshots
  let aggregate ← pyMax (priority.get_key_aggregate) snapshots
  let events2 ← opt_filter (fun e => decide (aggregate._version < e.version)) events
  let events3 := events2.filter (fun e => decide (aggregate._last_update_date.getD 0 < e.timestamp))
  match (StandartReconstructor.reconstruct reg creg σ0 freshId Priority.version
      events3 (some aggregate) none ia).2.1 with
  | .ok r => pure r
  | .error exc => .error exc

/-- The observable behaviour of one recorder: its name and rank, the list
of aggregate type tags it declares, and the outcome of each of its calls
(none means the call returns normally, some e means it raises e). -/
inductive GetBeh where
  | ret (v : Option Nat)
  | raiseE (e : PyExc)
deriving DecidableEq, Repr

structure RecorderB where
  name : String
  rank : Nat
  aggregates_types : List Nat
  saveRes : Option PyExc
  rollbackRes : Option PyExc
  commitRes : Option PyExc
  getRes : GetBeh
deriving DecidableEq, Repr

/-- One call issued to a recorder, with the kind of argument a save call
received: RecorderStore.save passes the aggregate object, Application.save
passes the collected event list. -/
inductive SaveArg where
  | aggregateArg
  | eventListArg
deriving DecidableEq, Repr

inductive Call where
  | save (recorder : String) (arg : SaveArg)
  | rollback (recorder : String)
  | commit (recorder : String)
  | getC (recorder : String)
deriving DecidableEq, Repr

/-- The result of one recorder.get call as an Except. -/
def recorder_get (r : RecorderB) : Except PyExc (Option Nat) :=
  match r.getRes with
  | .ret v => .ok v
  | .raiseE e => .error e

/-- Recorder.is_recordable: some declared aggregate type matches the
runtime type of the aggregate, where inst tag t models isinstance for an
aggregate of type tag against a declared class t. -/
def is_recordable (inst : Nat → Nat → Bool) (r : RecorderB) (tag : Nat) : Bool :=
  r.aggregates_types.any (fun t => inst tag t)

/-- Insertion into the dict comprehension building self.recorders: a
repeated name overwrites the stored recorder in place, a new name is
appended. -/
def dict_insert (acc : List RecorderB) (r : RecorderB) : List RecorderB :=
  if acc.any (fun x => x.name == r.name) then
    acc.map (fun x => if x.name == r.name then r else x)
  else acc ++ [r]

/-- The values view of the name-keyed recorder dict of RecorderStore. -/
def dict_values (recorders : List RecorderB) : List RecorderB :=
  recorders.foldl dict_insert []

/-- The ordering by rank used by sorted in RecorderStore. -/
def rank_le (a b : RecorderB) : Prop := a.rank ≤ b.rank

instance : DecidableRel rank_le := fun a b => Nat.decLe a.rank b.rank

instance : IsTotal RecorderB rank_le :=
  ⟨fun a b => Nat.le_total a.rank b.rank⟩

instance : IsTrans RecorderB rank_le :=
  ⟨fun _ _ _ hab hbc => Nat.le_trans hab hbc⟩

/-- The recorder_list computed by RecorderStore.save: the recorders whose
declared types match the aggregate, sorted ascending by rank (sorted is a
stable sort, modelled by insertion sort). -/
def RecorderStore.selected (inst : Nat → Nat → Bool) (recorders : List RecorderB)
    (tag : Nat) : List RecorderB :=
  List.insertionSort rank_le
    ((dict_values recorders).filter (fun r => is_recordable inst r tag))

/-- The save loop of RecorderStore.save: call save on each recorder in
order until one raises; the trace records every call made, including the
raising one. -/
def run_saves : List RecorderB → List Call × Option PyExc
  | [] => ([], none)
  | r :: rest =>
    match r.saveRes with
    | some e => ([.save r.name .aggregateArg], some e)
    | none =>
      let p := run_saves rest
      (.save r.name .aggregateArg :: p.1, p.2)

/-- The rollback loop of RecorderStore.save: call rollback on every
recorder in the selected list; only RuntimeError is caught by the except
clause, any other exception propagates immediately and stops the loop. -/
def run_rollbacks : List RecorderB → List Call × Option PyExc
  | [] => ([], none)
  | r :: rest =>
    match r.rollbackRes with
    | none =>
      let p := run_rollbacks rest
      (.rollback r.name :: p.1, p.2)
    | some e =>
      if e.isRuntimeError then
        let p := run_rollbacks rest
        (.rollback r.name :: p.1, p.2)
      else ([.rollback r.name], some e)

/-- The commit loop of RecorderStore.save: commit each recorder in order;
a raising commit propagates and stops the loop. -/
def run_commits : List RecorderB → List Call × Option PyExc
  | [] => ([], none)
  | r :: rest =>
    match r.commitRes with
    | some e => ([.commit r.name], some e)
    | none =>
      let p := run_commits rest
      (.commit r.name :: p.1, p.2)

/-- RecorderStore.save (recorder_store.py lines 38-71): build the selected
list, save on each in rank order; on any save exception roll back every
selected recorder (swallowing only RuntimeError) and raise
RecorderSavingError from the original cause, unless a rollback exception
other than RuntimeError escapes first; when all saves succeed, commit each
selected recorder in order. -/
def RecorderStore.save (inst : Nat → Nat → Bool) (recorders : List RecorderB)
    (tag : Nat) : List Call × Except PyExc Unit :=
  let recorder_list := RecorderStore.selected inst recorders tag
  match run_saves recorder_list with
  | (st, some e) =>
    match run_rollbacks recorder_list with
    | (rt, some v) => (st ++ rt, .error v)
    | (rt, none) => (st ++ rt, .error (.recorderSavingError e))
  | (st, none) =>
    let p := run_commits recorder_list
    (st ++ p.1,
      match p.2 with
      | some v => .error v
      | none => .ok ())

/-- Truthiness of the recorder_name argument: None and the empty string
are falsy. -/
def str_truthy : Option String → Bool
  | none => false
  | some nm => nm != ""

/-- The fallback loop of RecorderStore.get: try each recorder in rank
order, treat AggregateNotFoundError as not found and continue, propagate
any other exception, return the first truthy aggregate, else None. -/
def RecorderStore.get_scan : List RecorderB → List Call × Except PyExc (Option Nat)
  | [] => ([], .ok none)
  | r :: rest =>
    match r.getRes with
    | .raiseE .aggregateNotFoundError =>
      let p := RecorderStore.get_scan rest
      (.getC r.name :: p.1, p.2)
    | .raiseE e => ([.getC r.name], .error e)
    | .ret (some v) => ([.getC r.name], .ok (some v))
    | .ret none =>
      let p := RecorderStore.get_scan rest
      (.getC r.name :: p.1, p.2)

/-- RecorderStore.get (recorder_store.py lines 73-114): with a truthy
recorder_name, look that recorder up in the name-keyed dict (KeyError when
absent) and delegate to it directly; otherwise scan all recorders in rank
order. -/
def RecorderStore.get (recorders : List RecorderB) (recorder_name : Option String) :
    List Call × Except PyExc (Option Nat) :=
  if str_truthy recorder_name then
    match (dict_values recorders).find? (fun r => r.name == recorder_name.getD "") with
    | none => ([], .error .keyError)
    | some r => ([.getC r.name], recorder_get r)
  else
    RecorderStore.get_scan (List.insertionSort rank_le (dict_values recorders))

/-- The loop of Application.save (application.py lines 13-18): for each
recorder in construction order and for each of its declared aggregate
types matching the aggregate, call save with the collected event list; no
exception handling, so the first raising save propagates. -/
def Application.save_loop (inst : Nat → Nat → Bool) (tag : Nat) :
    List RecorderB → List Call × Option PyExc
  | [] => ([], none)
  | r :: rest =>
    let k := (r.aggregates_types.filter (fun t => inst tag t)).length
    if k = 0 then Application.save_loop inst tag rest
    else
      match r.saveRes with
      | some e => ([.save r.name .eventListArg], some e)
      | none =>
        let p := Application.save_loop inst tag rest
        (List.replicate k (.save r.name .eventListArg) ++ p.1, p.2)

/-- Application.save: drain the unsaved events once through collect, then
run the loop above over the recorder list as constructed (no name dict, no
rank sorting, no commit, no rollback, no error wrapping). -/
def Application.save (inst : Nat → Nat → Bool) (recorders : List RecorderB)
    (tag : Nat) : List Call × Except PyExc Unit :=
  match Application.save_loop inst tag recorders with
  | (t, none) => (t, .ok ())
  | (t, some e) => (t, .error e)

/-- Whether the branch recorder_name and recorder.name == recorder_name of
Application.get takes this recorder. -/
def name_matches (recorder_name : Option String) (r : RecorderB) : Bool :=
  match recorder_name with
  | none => false
  | some nm => nm != "" && r.name == nm

/-- Whether the branch recorder_class and isinstance(recorder,
recorder_class) takes this recorder; class objects are truthy. -/
def class_matches (recorder_class : Option (RecorderB → Bool)) (r : RecorderB) : Bool :=
  match recorder_class with
  | none => false
  | some p => p r

/-- The loop of Application.get (application.py lines 32-42): for each
recorder in construction order, a recorder matching by name or class is
delegated to directly (errors propagate); otherwise the recorder is tried
as a fallback, AggregateNotFoundError meaning try the next one, and the
first truthy aggregate is returned.  Falling off the loop returns None. -/
def Application.get_loop (recorder_name : Option String)
    (recorder_class : Option (RecorderB → Bool)) :
    List RecorderB → List Call × Except PyExc (Option Nat)
  | [] => ([], .ok none)
  | r :: rest =>
    if name_matches recorder_name r || class_matches recorder_class r then
      ([.getC r.name], recorder_get r)
    else
      match r.getRes with
      | .raiseE .aggregateNotFoundError =>
        let p := Application.get_loop recorder_name recorder_class rest
        (.getC r.name :: p.1, p.2)
      | .raiseE e => ([.getC r.name], .error e)
      | .ret (some v) => ([.getC r.name], .ok (some v))
      | .ret none =>
        let p := Application.get_loop recorder_name recorder_class rest
        (.getC r.name :: p.1, p.2)

/-- Application.get (application.py lines 20-42): a recorder passed
directly is used as is; otherwise the loop above runs over the recorder
list in construction order. -/
def Application.get (recorders : List RecorderB) (recorder : Option RecorderB)
    (recorder_name : Option String) (recorder_class : Option (RecorderB → Bool)) :
    List Call × Except PyExc (Option Nat) :=
  match recorder with
  | some r => ([.getC r.name], recorder_get r)
  | none => Application.get_loop recorder_name recorder_class recorders

/-- A concrete aggregate class for witnesses: domain state is an Int
balance, payloads are Int amounts.  The constructor body sets the balance
to the payload. -/
def acctInit : Body Int Int := fun _ p => .ok p

/-- A mutating method body adding the payload to the balance. -/
def acctAdd : Body Int Int := fun s p => .ok (s + p)

/-- A constructor body that raises. -/
def failInit : Body Int Int := fun _ _ => .error ()

/-- The event function registry of the concrete class A with construction
event c and mutating event a. -/
def acctReg : EventFunctionRegistry Int Int := fun t n =>
  if t == "A" then
    if n == "c" then some acctInit
    else if n == "a" then some acctAdd
    else none
  else none

/-- The class registry containing only class A. -/
def acctCreg : ClassRegistry := fun t => t == "A"

/-- The construction call of the concrete class: event c with an explicit
timestamp of 5 and payload 3. -/
def acctInitOp : Op Int Int :=
  { name := "c", body := acctInit, explicit_timestamp := some 5, now := 5, payload := 3 }

/-- A mutating call of the concrete class: event a, no explicit timestamp,
clock 8, payload 4. -/
def acctAddOp : Op Int Int :=
  { name := "a", body := acctAdd, explicit_timestamp := none, now := 8, payload := 4 }

/-- A registry whose only constructor raises, for exercising the failure
path of Event.mutate. -/
def failReg : EventFunctionRegistry Int Int := fun t n =>
  if t == "F" && n == "c" then some failInit else none

/-- The class registry containing only class F. -/
def failCreg : ClassRegistry := fun t => t == "F"

/-- A concrete construction event of class A: payload 3, version 1,
originator id 7. -/
def evA : EventRec Int :=
  { name := "c", type_ := "A", event_kwargs := 3, timestamp := 5, version := 1,
    originator_id := 7 }

/-- A concrete construction event of class F, whose registered constructor
raises. -/
def evF : EventRec Int :=
  { name := "c", type_ := "F", event_kwargs := 3, timestamp := 5, version := 1,
    originator_id := 7 }

/-- A well-behaved recorder used as the base of concrete recorder sets. -/
def baseRecorder : RecorderB :=
  { name := "r", rank := 0, aggregates_types := [0], saveRes := none,
    rollbackRes := none, commitRes := none, getRes := GetBeh.ret none }

/-- A concrete recorder named b with rank 1 whose save raises KeyError. -/
def recSaveFail : RecorderB :=
  { baseRecorder with name := "b", rank := 1, saveRes := some PyExc.keyError }

/-- A concrete recorder named a whose rollback raises ValueError. -/
def recRollbackValueError : RecorderB :=
  { baseRecorder with name := "a", rollbackRes := some PyExc.valueError }

/-- A concrete recorder named d whose save raises ValueError and whose
rollback raises an exception that is not a RuntimeError. -/
def recSaveFailRollbackOther : RecorderB :=
  { baseRecorder with
      name := "d", saveRes := some PyExc.valueError,
      rollbackRes := some (PyExc.otherExc 3) }

/-- A concrete recorder whose save raises KeyError and whose rollback
raises TypeError. -/
def recSaveFailRollbackTypeError : RecorderB :=
  { baseRecorder with
      saveRes := some PyExc.keyError, rollbackRes := some PyExc.typeError }

/-- A concrete recorder named a whose get returns an aggregate 7. -/
def recGetA : RecorderB :=
  { baseRecorder with name := "a", getRes := GetBeh.ret (some 7) }

/-- A concrete recorder named b with rank 1 whose get returns an
aggregate 8. -/
def recGetB : RecorderB :=
  { baseRecorder with name := "b", rank := 1, getRes := GetBeh.ret (some 8) }

/-- C7: LimitedOrderedDict.get never returns the stored list nor the
caller-supplied default: because its body passes default as a keyword
argument to the positional-only dict.get, every call raises TypeError,
for every state, key and default (the state is left untouched since the
function is pure in this model and the source method performs no write). -/
theorem C7_limited_get_always_raises {K V : Type} (s : LimitedOrderedDict K V)
    (key : K) (default : Option (List V)) :
    LimitedOrderedDict.get s key default = Except.error PyExc.typeError :=
  rfl

/-- C6: EventAggregateMemory.get never reconstructs an aggregate from
events when snapshots are missing (nor in any other case): its first
statement fetches snapshots through LimitedOrderedDict.get, whose keyword
default argument makes it raise TypeError unconditionally, so the call
raises for every store state and every argument combination, in particular
when events exist for the id and no snapshot is stored or none survives
filtering. -/
theorem C6_memory_get_always_raises {σ π : Type} (reg : EventFunctionRegistry σ π)
    (creg : ClassRegistry) (σ0 : σ) (freshId : Nat) (m : EventAggregateMemory σ π)
    (originator_id : Nat) (max_version max_timestamp : Option Nat)
    (default : Option (AggregateRec σ π)) (priority : Priority) (ia : InitAttr) :
    EventAggregateMemory.get reg creg σ0 freshId m originator_id max_version
        max_timestamp default priority ia = Except.error PyExc.typeError :=
  rfl

/-- C10: StandartReconstructor.reconstruct reorders the list object passed
by the caller in place before folding: for every input list, starting
aggregate and priority argument, the final contents of the list are a
permutation of the input sorted by the chosen priority key, (version,
timestamp) under version priority and (timestamp, version) under timestamp
priority, and this holds independently of the outcome of the fold,
including calls in which the fold raises ReconstructionError. -/
theorem C10_reconstruct_sorts_in_place {σ π : Type} (reg : EventFunctionRegistry σ π)
    (creg : ClassRegistry) (σ0 : σ) (freshId : Nat) (self_priority : Priority)
    (list_event : List (EventRec π)) (aggregate : Option (AggregateRec σ π))
    (priority : Option Priority) (ia : InitAttr) :
    List.Perm
        (StandartReconstructor.reconstruct reg creg σ0 freshId self_priority
          list_event aggregate priority ia).1 list_event
      ∧ List.Sorted (event_le (effective_priority self_priority priority))
          (StandartReconstructor.reconstruct reg creg σ0 freshId self_priority
            list_event aggregate priority ia).1 := by
  unfold StandartReconstructor.reconstruct
  exact ⟨List.perm_insertionSort _ _, List.sorted_insertionSort _ _⟩

lemma items_sum_append (a b : List (K × List V)) :
    items_sum (a ++ b) = items_sum a + items_sum b := by
  simp [items_sum]

lemma items_sum_filter_le (p : K × List V → Bool) (d : List (K × List V)) :
    items_sum (d.filter p) ≤ items_sum d := by
  induction d with
  | nil => simp [items_sum]
  | cons x t ih =>
    by_cases h : p x
    · rw [List.filter_cons_of_pos h]
      simp only [items_sum, List.map_cons, List.sum_cons] at *
      omega
    · rw [List.filter_cons_of_neg h]
      simp only [items_sum, List.map_cons, List.sum_cons] at *
      omega

lemma items_sum_key_split [DecidableEq K] (k : K) (d : List (K × List V)) :
    items_sum (d.filter (fun p => !(p.1 == k)))
        + (((d.find? (fun p => p.1 == k)).map Prod.snd).getD []).length
      ≤ items_sum d := by
  induction d with
  | nil => simp [items_sum]
  | cons x t ih =>
    by_cases h : (x.1 == k) = true
    · rw [List.filter_cons_of_neg (by simp [h])]
      rw [show List.find? (fun p => p.1 == k) (x :: t) = some x from by
        simp [List.find?_cons, h]]
      have := items_sum_filter_le (fun p => !(p.1 == k)) t
      simp only [items_sum, List.map_cons, List.sum_cons, Option.map_some,
        Option.map_some', Option.getD_some] at *
      omega
    · have hx : (x.1 == k) = false := by simpa using h
      rw [List.filter_cons_of_pos (by simp [hx])]
      rw [show List.find? (fun p => p.1 == k) (x :: t)
            = List.find? (fun p => p.1 == k) t from by
        simp [List.find?_cons, hx]]
      simp only [items_sum, List.map_cons, List.sum_cons] at *
      omega

lemma move_append_items_le [DecidableEq K] (s : LimitedOrderedDict K V)
    (k : K) (v : V) :
    items_sum (s.move_append k v) ≤ items_sum s.data + 1 := by
  unfold LimitedOrderedDict.move_append
  rw [items_sum_append]
  have := items_sum_key_split k s.data
  simp only [items_sum, List.map_cons, List.map_nil, List.sum_cons, List.sum_nil,
    List.length_append, List.length_cons, List.length_nil] at *
  omega

lemma move_append_entries_ne_nil [DecidableEq K] {s : LimitedOrderedDict K V}
    (h : ∀ p ∈ s.data, p.2 ≠ []) (k : K) (v : V) :
    ∀ p ∈ s.move_append k v, p.2 ≠ [] := by
  intro p hp
  unfold LimitedOrderedDict.move_append at hp
  rcases List.mem_append.mp hp with hp | hp
  · exact h p (List.mem_of_mem_filter hp)
  · have : p = (k, ((s.data.find? (fun q => q.1 == k)).map Prod.snd).getD [] ++ [v]) := by
      simpa using hp
    rw [this]
    simp

lemma move_append_ne_nil [DecidableEq K] (s : LimitedOrderedDict K V)
    (k : K) (v : V) : s.move_append k v ≠ [] := by
  unfold LimitedOrderedDict.move_append
  simp

lemma good_add [DecidableEq K] {s : LimitedOrderedDict K V}
    (h : GoodState s) (k : K) (v : V) : GoodState (s.add k v) := by
  obtain ⟨hne, htot, hcs⟩ := h
  have hmove_ne := move_append_entries_ne_nil hne k v
  have hmove_le := move_append_items_le s k v
  unfold LimitedOrderedDict.add
  by_cases hmax : s.max_size = s.current_size + 1
  · rw [if_pos hmax]
    obtain ⟨x, t, hxt⟩ := List.exists_cons_of_ne_nil (move_append_ne_nil s k v)
    have hx_ne : x.2 ≠ [] := hmove_ne x (by rw [hxt]; exact List.mem_cons_self _ _)
    have hx_len : 1 ≤ x.2.length := by
      rcases Nat.eq_zero_or_pos x.2.length with h0 | h0
      · exact absurd (List.length_eq_zero.mp h0) hx_ne
      · exact h0
    have hsum : items_sum (x :: t) = x.2.length + items_sum t := by
      simp [items_sum]
    rw [hxt] at hmove_le
    refine ⟨?_, ?_, ?_⟩
    · intro p hp
      apply hmove_ne
      rw [hxt]
      simp only [hxt, List.tail_cons] at hp
      exact List.mem_cons_of_mem _ hp
    · show items_sum (s.move_append k v).tail ≤ s.current_size
      rw [hxt, List.tail_cons]
      omega
    · exact hcs
  · rw [if_neg hmax]
    refine ⟨hmove_ne, ?_, ?_⟩
    · show items_sum (s.move_append k v) ≤ s.current_size + 1
      omega
    · show s.current_size + 1 + 1 ≤ s.max_size
      omega

lemma good_new (K V : Type) {C : Nat} (hC : 1 ≤ C) :
    GoodState (LimitedOrderedDict.new K V C) := by
  refine ⟨?_, ?_, ?_⟩
  · intro p hp
    simp [LimitedOrderedDict.new] at hp
  · simp [LimitedOrderedDict.new, items_sum]
  · simpa [LimitedOrderedDict.new] using hC

lemma good_add_all [DecidableEq K] {s : LimitedOrderedDict K V}
    (h : GoodState s) (kvs : List (K × V)) : GoodState (s.add_all kvs) := by
  induction kvs generalizing s with
  | nil => exact h
  | cons p t ih => exact ih (good_add h p.1 p.2)

lemma add_max_size [DecidableEq K] (s : LimitedOrderedDict K V) (k : K) (v : V) :
    (s.add k v).max_size = s.max_size := by
  unfold LimitedOrderedDict.add
  split <;> rfl

lemma add_all_max_size [DecidableEq K] (s : LimitedOrderedDict K V)
    (kvs : List (K × V)) : (s.add_all kvs).max_size = s.max_size := by
  induction kvs generalizing s with
  | nil => rfl
  | cons p t ih =>
    show (LimitedOrderedDict.add_all _ t).max_size = _
    rw [ih, add_max_size]

/-- C2 counterexample: with capacity 2, the claim says eviction first
happens on the third inserted item, so after inserting one item under key 1
and one under key 2 both should still be stored (two items, no eviction).
In the code the trigger max_size == current_size + 1 already fires on the
second insert, evicting the entry of key 1: only one item remains and key 1
is gone. -/
theorem C2_counterexample :
    (LimitedOrderedDict.add_all (LimitedOrderedDict.new Nat Nat 2)
        [(1, 10), (2, 20)]).total_items = 1
      ∧ ((LimitedOrderedDict.add_all (LimitedOrderedDict.new Nat Nat 2)
        [(1, 10), (2, 20)]).data.find? (fun p => p.1 == 1)) = none := by
  decide

/-- C2 amended: for a cache of capacity C of at least 1 and any sequence of
add calls starting from the empty cache, the total number of stored items
never exceeds C (capacity is accounted per stored item via current_size);
eviction, however, triggers on the add that finds max_size equal to
current_size + 1 — the C-th insertion, one earlier than the claim states,
and on every later add, because pop never decrements current_size — and it
then removes exactly the least-recently-touched front entry of the order,
with its whole item list, never only part of it. -/
theorem C2_amended_capacity_and_eviction (C : Nat) (hC : 1 ≤ C)
    (kvs : List (Nat × Nat)) (k v : Nat) :
    (LimitedOrderedDict.add_all (LimitedOrderedDict.new Nat Nat C) kvs).total_items ≤ C
      ∧ ((LimitedOrderedDict.add_all (LimitedOrderedDict.new Nat Nat C) kvs).add k v).total_items ≤ C
      ∧ ((LimitedOrderedDict.add_all (LimitedOrderedDict.new Nat Nat C) kvs).max_size
            = (LimitedOrderedDict.add_all (LimitedOrderedDict.new Nat Nat C) kvs).current_size + 1 →
          ((LimitedOrderedDict.add_all (LimitedOrderedDict.new Nat Nat C) kvs).add k v).data
              = ((LimitedOrderedDict.add_all (LimitedOrderedDict.new Nat Nat C) kvs).move_append k v).tail
            ∧ ∃ k0 l0,
                (LimitedOrderedDict.add_all (LimitedOrderedDict.new Nat Nat C) kvs).move_append k v
                  = (k0, l0)
                    :: ((LimitedOrderedDict.add_all (LimitedOrderedDict.new Nat Nat C) kvs).add k v).data) := by
  have hg := good_add_all (good_new Nat Nat hC) kvs
  have hmax := add_all_max_size (LimitedOrderedDict.new Nat Nat C) kvs
  have hmaxC : (LimitedOrderedDict.add_all (LimitedOrderedDict.new Nat Nat C) kvs).max_size = C := hmax
  have hg2 := good_add hg k v
  have hmax2 := add_max_size (LimitedOrderedDict.add_all (LimitedOrderedDict.new Nat Nat C) kvs) k v
  refine ⟨?_, ?_, ?_⟩
  · show items_sum _ ≤ C
    obtain ⟨_, h1, h2⟩ := hg
    omega
  · show items_sum _ ≤ C
    obtain ⟨_, h1, h2⟩ := hg2
    rw [hmax2, hmaxC] at h2
    omega
  · intro htrig
    obtain ⟨x, t, hxt⟩ := List.exists_cons_of_ne_nil
      (move_append_ne_nil (LimitedOrderedDict.add_all (LimitedOrderedDict.new Nat Nat C) kvs) k v)
    constructor
    · show (LimitedOrderedDict.add _ k v).data = _
      unfold LimitedOrderedDict.add
      rw [if_pos htrig]
    · refine ⟨x.1, x.2, ?_⟩
      have hdata : ((LimitedOrderedDict.add_all (LimitedOrderedDict.new Nat Nat C) kvs).add k v).data
          = ((LimitedOrderedDict.add_all (LimitedOrderedDict.new Nat Nat C) kvs).move_append k v).tail := by
        unfold LimitedOrderedDict.add
        rw [if_pos htrig]
      rw [hdata, hxt]
      rfl

/-- C2 witness: the amended theorem applied at capacity 1 with no prior
adds and one triggering add. -/
theorem C2_amended_capacity_and_eviction_witness :
    (LimitedOrderedDict.add_all (LimitedOrderedDict.new Nat Nat 1) []).total_items ≤ 1
      ∧ ((LimitedOrderedDict.add_all (LimitedOrderedDict.new Nat Nat 1) []).add 0 7).total_items ≤ 1
      ∧ ((LimitedOrderedDict.add_all (LimitedOrderedDict.new Nat Nat 1) []).max_size
            = (LimitedOrderedDict.add_all (LimitedOrderedDict.new Nat Nat 1) []).current_size + 1 →
          ((LimitedOrderedDict.add_all (LimitedOrderedDict.new Nat Nat 1) []).add 0 7).data
              = ((LimitedOrderedDict.add_all (LimitedOrderedDict.new Nat Nat 1) []).move_append 0 7).tail
            ∧ ∃ k0 l0,
                (LimitedOrderedDict.add_all (LimitedOrderedDict.new Nat Nat 1) []).move_append 0 7
                  = (k0, l0)
                    :: ((LimitedOrderedDict.add_all (LimitedOrderedDict.new Nat Nat 1) []).add 0 7).data) :=
  C2_amended_capacity_and_eviction 1 (by decide) [] 0 7

lemma run_saves_spec {pre : List RecorderB} {f : RecorderB} {post : List RecorderB}
    {e : PyExc} (hpre : ∀ r ∈ pre, r.saveRes = none) (hf : f.saveRes = some e) :
    run_saves (pre ++ f :: post)
      = ((pre ++ [f]).map (fun r => Call.save r.name SaveArg.aggregateArg), some e) := by
  induction pre with
  | nil =>
    simp only [List.nil_append, List.map_cons, List.map_nil]
    unfold run_saves
    rw [hf]
  | cons r t ih =>
    have hr : r.saveRes = none := hpre r (List.mem_cons_self _ _)
    have ht : ∀ x ∈ t, x.saveRes = none := fun x hx => hpre x (List.mem_cons_of_mem _ hx)
    simp only [List.cons_append, List.map_cons]
    unfold run_saves
    rw [hr, ih ht]

lemma run_rollbacks_ok {l : List RecorderB}
    (h : ∀ r ∈ l, r.rollbackRes = none ∨ r.rollbackRes = some PyExc.runtimeError) :
    run_rollbacks l = (l.map (fun r => Call.rollback r.name), none) := by
  induction l with
  | nil => rfl
  | cons r t ih =>
    have ht : ∀ x ∈ t, x.rollbackRes = none ∨ x.rollbackRes = some PyExc.runtimeError :=
      fun x hx => h x (List.mem_cons_of_mem _ hx)
    rcases h r (List.mem_cons_self _ _) with hr | hr
    · simp only [List.map_cons]
      unfold run_rollbacks
      rw [hr, ih ht]
    · simp only [List.map_cons]
      unfold run_rollbacks
      rw [hr]
      simp only [PyExc.isRuntimeError, if_pos]
      rw [ih ht]

lemma run_rollbacks_fail {rpre : List RecorderB} {g : RecorderB} {rpost : List RecorderB}
    {v : PyExc}
    (hrpre : ∀ r ∈ rpre, r.rollbackRes = none ∨ r.rollbackRes = some PyExc.runtimeError)
    (hg : g.rollbackRes = some v) (hv : v.isRuntimeError = false) :
    run_rollbacks (rpre ++ g :: rpost)
      = ((rpre ++ [g]).map (fun r => Call.rollback r.name), some v) := by
  induction rpre with
  | nil =>
    simp only [List.nil_append, List.map_cons, List.map_nil]
    unfold run_rollbacks
    rw [hg]
    simp [hv]
  | cons r t ih =>
    have ht : ∀ x ∈ t, x.rollbackRes = none ∨ x.rollbackRes = some PyExc.runtimeError :=
      fun x hx => hrpre x (List.mem_cons_of_mem _ hx)
    rcases hrpre r (List.mem_cons_self _ _) with hr | hr
    · simp only [List.cons_append, List.map_cons]
      unfold run_rollbacks
      rw [hr, ih ht]
    · simp only [List.cons_append, List.map_cons]
      unfold run_rollbacks
      rw [hr]
      simp only [PyExc.isRuntimeError, if_pos]
      rw [ih ht]

/-- C3 counterexample: recorder a (rank 0) saves successfully and recorder
b (rank 1) fails its save, but the rollback of a raises ValueError, which
the except RuntimeError clause does not catch: the caller receives
ValueError instead of RecorderSavingError and recorder b never receives a
rollback call, falsifying the claim as stated. -/
theorem C3_counterexample :
    (RecorderStore.save (fun _ _ => true) [recRollbackValueError, recSaveFail] 0).2
        ≠ Except.error (PyExc.recorderSavingError PyExc.keyError)
      ∧ Call.rollback "b"
          ∉ (RecorderStore.save (fun _ _ => true) [recRollbackValueError, recSaveFail] 0).1 := by
  decide

/-- C3 amended: when a selected save raises after the earlier selected
saves succeeded, and every selected rollback either returns normally or
raises RuntimeError (the only exception type the rollback loop swallows),
then the save calls stop at the failing recorder, every recorder of the
rank-sorted selected list receives exactly one rollback call, no commit
call is issued, and the caller receives RecorderSavingError wrapping the
original cause. -/
theorem C3_amended_rollback_all_and_wrap (inst : Nat → Nat → Bool)
    (recorders : List RecorderB) (tag : Nat) (pre : List RecorderB) (f : RecorderB)
    (post : List RecorderB) (e : PyExc)
    (hsel : RecorderStore.selected inst recorders tag = pre ++ f :: post)
    (hpre : ∀ r ∈ pre, r.saveRes = none)
    (hf : f.saveRes = some e)
    (hrb : ∀ r ∈ pre ++ f :: post,
      r.rollbackRes = none ∨ r.rollbackRes = some PyExc.runtimeError) :
    RecorderStore.save inst recorders tag
      = ((pre ++ [f]).map (fun r => Call.save r.name SaveArg.aggregateArg)
          ++ (pre ++ f :: post).map (fun r => Call.rollback r.name),
         Except.error (PyExc.recorderSavingError e)) := by
  unfold RecorderStore.save
  rw [hsel]
  simp only [run_saves_spec hpre hf, run_rollbacks_ok hrb]

/-- C3 witness: the amended theorem at a concrete pair of recorders with
well-behaved rollbacks. -/
theorem C3_amended_rollback_all_and_wrap_witness :
    RecorderStore.save (fun _ _ => true) [baseRecorder, recSaveFail] 0
      = (([baseRecorder, recSaveFail].map
            (fun r => Call.save r.name SaveArg.aggregateArg))
          ++ ([baseRecorder, recSaveFail].map (fun r => Call.rollback r.name)),
         Except.error (PyExc.recorderSavingError PyExc.keyError)) :=
  C3_amended_rollback_all_and_wrap (fun _ _ => true) _ 0 [baseRecorder]
    recSaveFail [] PyExc.keyError
    (by decide) (by decide) (by decide) (by decide)

/-- C4 counterexample: a single matching recorder whose save raises
ValueError and whose rollback raises an exception that is not a
RuntimeError: the rollback failure is not swallowed, it propagates to the
caller and replaces RecorderSavingError, falsifying the claim that every
rollback failure is swallowed whatever its type. -/
theorem C4_counterexample :
    (RecorderStore.save (fun _ _ => true) [recSaveFailRollbackOther] 0).2
        = Except.error (PyExc.otherExc 3)
      ∧ (RecorderStore.save (fun _ _ => true) [recSaveFailRollbackOther] 0).2
          ≠ Except.error (PyExc.recorderSavingError PyExc.valueError) := by
  decide

/-- C4 amended: the rollback loop of RecorderStore.save swallows only
RuntimeError.  When the save phase fails with cause e and some selected
rollback raises an exception v that is not a RuntimeError (the earlier
selected rollbacks returning normally or raising RuntimeError), that
exception propagates to the caller in place of RecorderSavingError, the
original save failure is suppressed, and the remaining rollbacks are
skipped. -/
theorem C4_amended_only_runtime_swallowed (inst : Nat → Nat → Bool)
    (recorders : List RecorderB) (tag : Nat) (pre : List RecorderB) (f : RecorderB)
    (post : List RecorderB) (e : PyExc) (rpre : List RecorderB) (g : RecorderB)
    (rpost : List RecorderB) (v : PyExc)
    (hsel : RecorderStore.selected inst recorders tag = pre ++ f :: post)
    (hpre : ∀ r ∈ pre, r.saveRes = none)
    (hf : f.saveRes = some e)
    (hdec : pre ++ f :: post = rpre ++ g :: rpost)
    (hrpre : ∀ r ∈ rpre,
      r.rollbackRes = none ∨ r.rollbackRes = some PyExc.runtimeError)
    (hg : g.rollbackRes = some v)
    (hv : v.isRuntimeError = false) :
    RecorderStore.save inst recorders tag
      = ((pre ++ [f]).map (fun r => Call.save r.name SaveArg.aggregateArg)
          ++ (rpre ++ [g]).map (fun r => Call.rollback r.name),
         Except.error v) := by
  unfold RecorderStore.save
  rw [hsel]
  simp only [run_saves_spec hpre hf]
  rw [hdec]
  simp only [run_rollbacks_fail hrpre hg hv]

/-- C4 witness: the amended theorem at a single concrete recorder whose
save raises KeyError and whose rollback raises TypeError. -/
theorem C4_amended_only_runtime_swallowed_witness :
    RecorderStore.save (fun _ _ => true) [recSaveFailRollbackTypeError] 0
      = (([recSaveFailRollbackTypeError].map
            (fun r => Call.save r.name SaveArg.aggregateArg))
          ++ ([recSaveFailRollbackTypeError].map (fun r => Call.rollback r.name)),
         Except.error PyExc.typeError) :=
  C4_amended_only_runtime_swallowed (fun _ _ => true) _ 0 []
    recSaveFailRollbackTypeError [] PyExc.keyError []
    recSaveFailRollbackTypeError [] PyExc.typeError
    (by decide) (by decide) (by decide) (by decide) (by decide) (by decide) (by decide)

lemma app_save_loop_ok (inst : Nat → Nat → Bool) (tag : Nat) {l : List RecorderB}
    (h : ∀ r ∈ l, r.saveRes = none) :
    Application.save_loop inst tag l
      = (l.flatMap (fun r =>
          (r.aggregates_types.filter (fun t => inst tag t)).map
            (fun _ => Call.save r.name SaveArg.eventListArg)), none) := by
  induction l with
  | nil => rfl
  | cons r t ih =>
    have hr : r.saveRes = none := h r (List.mem_cons_self _ _)
    have ht : ∀ x ∈ t, x.saveRes = none := fun x hx => h x (List.mem_cons_of_mem _ hx)
    unfold Application.save_loop
    by_cases hk : (r.aggregates_types.filter (fun ty => inst tag ty)).length = 0
    · rw [if_pos hk, ih ht]
      have h0 : r.aggregates_types.filter (fun ty => inst tag ty) = [] :=
        List.length_eq_zero.mp hk
      simp [h0]
    · rw [if_neg hk, hr, ih ht]
      have : (r.aggregates_types.filter (fun ty => inst tag ty)).map
          (fun _ => Call.save r.name SaveArg.eventListArg)
          = List.replicate (r.aggregates_types.filter (fun ty => inst tag ty)).length
              (Call.save r.name SaveArg.eventListArg) :=
        List.map_const _ _
      simp [this]

/-- C5 counterexample: even for a single all-successful matching recorder,
RecorderStore.save issues a save call carrying the aggregate followed by a
commit call, while Application.save issues a single save call carrying the
collected event list and never commits, so the per-recorder call sequences
differ; and for get with recorder_name given, RecorderStore.get consults
exactly the named recorder while Application.get first queries the earlier
recorder in construction order as a fallback and returns its aggregate, so
the results differ as well.  The facade therefore does not behave
identically to the store. -/
theorem C5_counterexample :
    (RecorderStore.save (fun _ _ => true) [baseRecorder] 0).1
        ≠ (Application.save (fun _ _ => true) [baseRecorder] 0).1
      ∧ (RecorderStore.get [recGetA, recGetB] (some "b")).2
          ≠ (Application.get [recGetA, recGetB] none (some "b") none).2 := by
  decide

/-- C5 amended: Application.save does not delegate to RecorderStore.save:
it drains the collected events and calls save(event_list) directly on each
recorder once per declared aggregate type matching the aggregate, in
construction order, with no rank sorting, no commit, no rollback and no
error wrapping (when all saves succeed the outcome is plain success and
the trace consists of exactly those save calls); and Application.get does
not delegate to RecorderStore.get: given recorder_name, a preceding
recorder that holds the aggregate is consulted first and its result
returned before the named recorder is ever reached. -/
theorem C5_amended_facade_behaviour (inst : Nat → Nat → Bool)
    (recorders : List RecorderB) (tag : Nat)
    (hok : ∀ r ∈ recorders, r.saveRes = none) :
    (Application.save inst recorders tag).1
        = recorders.flatMap (fun r =>
            (r.aggregates_types.filter (fun t => inst tag t)).map
              (fun _ => Call.save r.name SaveArg.eventListArg))
      ∧ (Application.save inst recorders tag).2 = Except.ok ()
      ∧ (∀ c ∈ (Application.save inst recorders tag).1,
          ∃ nm, c = Call.save nm SaveArg.eventListArg)
      ∧ (∀ (nm : String) (r : RecorderB) (rest : List RecorderB) (v : Nat),
          r.name ≠ nm → r.getRes = GetBeh.ret (some v) →
            Application.get (r :: rest) none (some nm) none
              = ([Call.getC r.name], Except.ok (some v))) := by
  have hloop := app_save_loop_ok inst tag hok
  refine ⟨?_, ?_, ?_, ?_⟩
  · unfold Application.save
    rw [hloop]
  · unfold Application.save
    rw [hloop]
  · intro c hc
    unfold Application.save at hc
    rw [hloop] at hc
    simp only [List.mem_flatMap, List.mem_map] at hc
    obtain ⟨r, _, _, _, hcall⟩ := hc
    exact ⟨r.name, hcall.symm⟩
  · intro nm r rest v hne hv
    have hbeq : (r.name == nm) = false := beq_eq_false_iff_ne.mpr hne
    simp [Application.get, Application.get_loop, name_matches, class_matches, hbeq, hv]

/-- C5 witness: the amended theorem at one concrete recorder for the save
half and at a concrete two-recorder configuration for the get half. -/
theorem C5_amended_facade_behaviour_witness :
    (Application.save (fun _ _ => true) [baseRecorder] 0).1
        = [Call.save "r" SaveArg.eventListArg]
      ∧ Application.get [recGetA] none (some "b") none
          = ([Call.getC "a"], Except.ok (some 7)) := by
  have h := C5_amended_facade_behaviour (fun _ _ => true) [baseRecorder] 0 (by decide)
  exact ⟨h.1.trans (by decide), h.2.2.2 "b" recGetA [] 7 (by decide) (by decide)⟩

lemma event_wrapper_version_buffer (type_ : String) (op : Op σ π) (a : AggregateRec σ π) :
    (event_wrapper type_ op a).1._version = a._version + 1
      ∧ (event_wrapper type_ op a).1._unsaved_event_list
          = a._unsaved_event_list ++
            [{ name := op.name, type_ := type_, event_kwargs := op.payload,
               timestamp := op.explicit_timestamp.getD op.now,
               version := a._version + 1, originator_id := a._id }] := by
  unfold event_wrapper
  dsimp only
  split <;> simp

lemma run_ops_version (type_ : String) (ops : List (Op σ π)) :
    ∀ (a : AggregateRec σ π) (flag : Bool),
      a._unsaved_event_list.map EventRec.version = List.range' 1 a._version →
      (run_ops type_ ops (a, flag)).1._unsaved_event_list.map EventRec.version
          = List.range' 1 (run_ops type_ ops (a, flag)).1._version
        ∧ (run_ops type_ ops (a, flag)).1._version = a._version + ops.length := by
  induction ops with
  | nil => exact fun a flag h => ⟨h, rfl⟩
  | cons op t ih =>
    intro a flag h
    have hstep : run_ops type_ (op :: t) (a, flag)
        = run_ops type_ t
            ((event_wrapper type_ op a).1, flag && (event_wrapper type_ op a).2) := rfl
    rw [hstep]
    obtain ⟨hv, hb⟩ := event_wrapper_version_buffer type_ op a
    have hbuf2 : (event_wrapper type_ op a).1._unsaved_event_list.map EventRec.version
        = List.range' 1 ((event_wrapper type_ op a).1._version) := by
      rw [hb, hv, List.map_append, h]
      simp [List.range'_concat, Nat.add_comm]
    have hres := ih (event_wrapper type_ op a).1
      (flag && (event_wrapper type_ op a).2) hbuf2
    refine ⟨hres.1, ?_⟩
    rw [hres.2, hv]
    simp [List.length_cons]
    omega

/-- C8: on a freshly constructed aggregate, each invocation of a decorated
method increments _version by exactly 1; after an accepted construction
followed by N - 1 accepted mutating operations (N events in total,
construction included) _version equals N; and the versions stored in the
unsaved buffer are exactly 1, 2, ..., N in buffer order, so the i-th
buffered event carries version i. -/
theorem C8_version_counting {σ π : Type} (type_ : String) (σ0 : σ) (freshId : Nat)
    (initOp : Op σ π) (ops : List (Op σ π))
    (hacc : (live_run type_ σ0 freshId initOp ops).2 = true) :
    (∀ (a : AggregateRec σ π) (op : Op σ π),
        (event_wrapper type_ op a).1._version = a._version + 1)
      ∧ (live_run type_ σ0 freshId initOp ops).1._version = ops.length + 1
      ∧ (live_run type_ σ0 freshId initOp ops).1._unsaved_event_list.map EventRec.version
          = List.range' 1 (ops.length + 1) := by
  obtain ⟨hv0, hb0⟩ := event_wrapper_version_buffer type_ initOp
    { _unsaved_event_list := [], _version := 0, _id := freshId,
      _last_update_date := none, domain := σ0 }
  have hbufinit : (AggregateMeta.call_event_init type_ σ0 freshId initOp).1._unsaved_event_list.map
      EventRec.version
      = List.range' 1 (AggregateMeta.call_event_init type_ σ0 freshId initOp).1._version := by
    unfold AggregateMeta.call_event_init
    rw [hb0, hv0]
    rfl
  have hmain := run_ops_version type_ ops
    (AggregateMeta.call_event_init type_ σ0 freshId initOp).1
    (AggregateMeta.call_event_init type_ σ0 freshId initOp).2 hbufinit
  have hv1 : (AggregateMeta.call_event_init type_ σ0 freshId initOp).1._version = 1 := by
    unfold AggregateMeta.call_event_init
    rw [hv0]
  have heta : live_run type_ σ0 freshId initOp ops
      = run_ops type_ ops
          ((AggregateMeta.call_event_init type_ σ0 freshId initOp).1,
           (AggregateMeta.call_event_init type_ σ0 freshId initOp).2) := rfl
  refine ⟨fun a op => (event_wrapper_version_buffer type_ op a).1, ?_, ?_⟩
  · rw [heta, hmain.2, hv1, Nat.add_comm]
  · rw [heta, hmain.1, hmain.2, hv1, Nat.add_comm]

/-- C8 witness: the theorem at the concrete class A with one construction
and one mutating call, both accepted. -/
theorem C8_version_counting_witness :
    (live_run "A" (0 : Int) 7 acctInitOp [acctAddOp]).1._version = 2
      ∧ (live_run "A" (0 : Int) 7 acctInitOp [acctAddOp]).1._unsaved_event_list.map
          EventRec.version = List.range' 1 2 := by
  have h := C8_version_counting "A" (0 : Int) 7 acctInitOp [acctAddOp] (by decide)
  exact ⟨h.2.1, h.2.2⟩

/-- C9: replaying a construction event through Event.mutate with no
aggregate temporarily installs the registered constructor mutator as the
class __init__; when the mutator returns normally, the produced instance
has an empty unsaved event buffer, its _id is the originator id of the
event, its _version is the version of the event, and the class __init__ is
restored to whatever it was before the call; when the constructor mutator
raises, the restoring assignment is never executed and the class keeps the
registered function as its __init__. -/
theorem C9_mutate_none_init_swap {σ π : Type} (reg : EventFunctionRegistry σ π)
    (creg : ClassRegistry) (σ0 : σ) (freshId : Nat) (e : EventRec π)
    (func : Body σ π) (ia : InitAttr)
    (hfunc : reg e.type_ e.name = some func)
    (hcreg : creg e.type_ = true) :
    (∀ s, func σ0 e.event_kwargs = Except.ok s →
        Event.mutate reg creg σ0 freshId e none ia
          = (Except.ok { _unsaved_event_list := [], _version := e.version,
                         _id := e.originator_id, _last_update_date := none,
                         domain := s }, ia))
      ∧ (∀ err, func σ0 e.event_kwargs = Except.error err →
          Event.mutate reg creg σ0 freshId e none ia
            = (Except.error (PyExc.otherExc 0), InitAttr.registeredFunc e.type_ e.name)) := by
  constructor
  · intro s hs
    simp [Event.mutate, hfunc, hcreg, hs]
  · intro err herr
    simp [Event.mutate, hfunc, hcreg, herr]

/-- C9 witness: the normal path at the concrete class A (instance fields
and restored __init__) and the raising path at the concrete class F whose
constructor raises (__init__ left pointing at the registered function). -/
theorem C9_mutate_none_init_swap_witness :
    Event.mutate acctReg acctCreg (0 : Int) 99 evA none InitAttr.originalInit
      = (Except.ok { _unsaved_event_list := [], _version := 1, _id := 7,
                     _last_update_date := none, domain := (3 : Int) },
         InitAttr.originalInit)
      ∧ (Event.mutate failReg failCreg (0 : Int) 99 evF none
          InitAttr.originalInit).2
          = InitAttr.registeredFunc "F" "c" := by
  have h1 := C9_mutate_none_init_swap acctReg acctCreg (0 : Int) 99 evA acctInit
    InitAttr.originalInit rfl rfl
  have h2 := C9_mutate_none_init_swap failReg failCreg (0 : Int) 99 evF failInit
    InitAttr.originalInit rfl rfl
  refine ⟨h1.1 3 rfl, ?_⟩
  rw [h2.2 () rfl]
  rfl

lemma event_wrapper_ok {type_ : String} {op : Op σ π} {a : AggregateRec σ π}
    (h : (event_wrapper type_ op a).2 = true) :
    ∃ s, op.body a.domain op.payload = Except.ok s ∧
      (event_wrapper type_ op a).1
        = { _unsaved_event_list := a._unsaved_event_list ++
              [{ name := op.name, type_ := type_, event_kwargs := op.payload,
                 timestamp := op.explicit_timestamp.getD op.now,
                 version := a._version + 1, originator_id := a._id }],
            _version := a._version + 1, _id := a._id,
            _last_update_date := some (op.explicit_timestamp.getD op.now),
            domain := s } := by
  unfold event_wrapper at h ⊢
  dsimp only at h ⊢
  cases hb : op.body a.domain op.payload with
  | ok s =>
    simp only [hb]
    exact ⟨s, rfl, rfl⟩
  | error err =>
    rw [hb] at h
    simp at h

lemma replay_go_concat_ok (reg : EventFunctionRegistry σ π) (creg : ClassRegistry)
    (σ0 : σ) (f : Nat) {l : List (EventRec π)} (e : EventRec π)
    {acc r : Option (AggregateRec σ π)} {ia ia2 : InitAttr}
    (h : replay_go reg creg σ0 f l acc ia = (Except.ok r, ia2)) :
    replay_go reg creg σ0 f (l ++ [e]) acc ia
      = match Event.mutate reg creg σ0 f e r ia2 with
        | (.ok a, ia3) => (Except.ok (some a), ia3)
        | (.error exc, ia3) => (Except.error exc, ia3) := by
  induction l generalizing acc ia with
  | nil =>
    simp only [replay_go] at h
    obtain ⟨h1, h2⟩ := Prod.mk.injEq .. |>.mp h
    obtain rfl : acc = r := by injection h1
    subst h2
    simp only [List.nil_append]
    unfold replay_go
    rcases hm : Event.mutate reg creg σ0 f e acc ia with ⟨res, ia3⟩
    cases res <;> simp [replay_go]
  | cons x t ih =>
    rcases hm : Event.mutate reg creg σ0 f x acc ia with ⟨res, ia3⟩
    cases res with
    | ok a =>
      have hstep : replay_go reg creg σ0 f (x :: t) acc ia
          = replay_go reg creg σ0 f t (some a) ia3 := by
        simp only [replay_go]
        rw [hm]
      have hstep2 : replay_go reg creg σ0 f ((x :: t) ++ [e]) acc ia
          = replay_go reg creg σ0 f (t ++ [e]) (some a) ia3 := by
        rw [List.cons_append]
        simp only [replay_go]
        rw [hm]
      rw [hstep] at h
      rw [hstep2]
      exact ih h
    | error exc =>
      exfalso
      have hstep : replay_go reg creg σ0 f (x :: t) acc ia = (Except.error exc, ia3) := by
        simp only [replay_go]
        rw [hm]
      rw [hstep] at h
      simp at h

lemma replay_of_live {σ π : Type} (type_ : String) (σ0 : σ) (freshId freshId2 : Nat)
    (reg : EventFunctionRegistry σ π) (creg : ClassRegistry)
    (initOp : Op σ π) (ops : List (Op σ π))
    (hreg0 : reg type_ initOp.name = some initOp.body)
    (hcreg : creg type_ = true)
    (hregs : ∀ op ∈ ops, reg type_ op.name = some op.body)
    (hacc : (live_run type_ σ0 freshId initOp ops).2 = true) :
    replay_go reg creg σ0 freshId2
        (live_run type_ σ0 freshId initOp ops).1._unsaved_event_list none
        InitAttr.originalInit
      = (Except.ok (some (scrub (live_run type_ σ0 freshId initOp ops).1)),
         InitAttr.originalInit) := by
  induction ops using List.reverseRecOn with
  | nil =>
    have hacc0 : (event_wrapper type_ initOp
        { _unsaved_event_list := [], _version := 0, _id := freshId,
          _last_update_date := none, domain := σ0 }).2 = true := hacc
    obtain ⟨s, hs, hstate⟩ := event_wrapper_ok hacc0
    show replay_go reg creg σ0 freshId2
        (event_wrapper type_ initOp
          { _unsaved_event_list := [], _version := 0, _id := freshId,
            _last_update_date := none, domain := σ0 }).1._unsaved_event_list none
        InitAttr.originalInit
      = (Except.ok (some (scrub (event_wrapper type_ initOp
          { _unsaved_event_list := [], _version := 0, _id := freshId,
            _last_update_date := none, domain := σ0 }).1)), InitAttr.originalInit)
    rw [hstate]
    simp [replay_go, Event.mutate, hreg0, hcreg, hs, scrub]
  | append_singleton t op ih =>
    have hsplit : live_run type_ σ0 freshId initOp (t ++ [op])
        = ((event_wrapper type_ op (live_run type_ σ0 freshId initOp t).1).1,
           (live_run type_ σ0 freshId initOp t).2
             && (event_wrapper type_ op (live_run type_ σ0 freshId initOp t).1).2) := by
      unfold live_run run_ops
      rw [List.foldl_append]
      rfl
    obtain ⟨hacc_t, hw⟩ :
        (live_run type_ σ0 freshId initOp t).2 = true
          ∧ (event_wrapper type_ op (live_run type_ σ0 freshId initOp t).1).2 = true := by
      rw [hsplit] at hacc
      simpa using hacc
    have hregs_t : ∀ o ∈ t, reg type_ o.name = some o.body :=
      fun o ho => hregs o (List.mem_append.mpr (Or.inl ho))
    have hregs_op : reg type_ op.name = some op.body :=
      hregs op (List.mem_append.mpr (Or.inr (by simp)))
    have hIH := ih hregs_t hacc_t
    obtain ⟨s, hs, hstate⟩ := event_wrapper_ok hw
    rw [hsplit, hstate]
    show replay_go reg creg σ0 freshId2
        ((live_run type_ σ0 freshId initOp t).1._unsaved_event_list ++ _) none
        InitAttr.originalInit = _
    rw [replay_go_concat_ok reg creg σ0 freshId2 _ hIH]
    simp [Event.mutate, hregs_op, hs, scrub]

/-- C1 counterexample: for the concrete class A, a fresh aggregate built
through its decorated constructor (no further operations), replaying the
collected events from no aggregate yields an aggregate that differs from
the live one under Aggregate.__eq__, because the live instance carries the
_last_update_date attribute set by the event wrapper while Event.mutate
never sets it on the replayed instance: the replay succeeds but produces
the scrubbed state, which is not equal to the collected live state. -/
theorem C1_counterexample :
    (replay_events acctReg acctCreg (0 : Int) 99
        (Aggregate.collect (live_run "A" (0 : Int) 7 acctInitOp []).1).1).1
        = Except.ok (some (scrub (live_run "A" (0 : Int) 7 acctInitOp []).1))
      ∧ scrub (live_run "A" (0 : Int) 7 acctInitOp []).1
          ≠ (Aggregate.collect (live_run "A" (0 : Int) 7 acctInitOp []).1).2 := by
  decide

/-- C1 amended: for every aggregate class, accepted construction and
accepted sequence of mutating operations whose event names are registered
to their bodies, replaying the collected event list (construction event
included) from no aggregate succeeds and reproduces the live aggregate at
the moment of collection in every attribute except _last_update_date: the
replayed instance equals the collected live instance with the
_last_update_date attribute removed (the live one carries it, the replayed
one never receives it), so full Aggregate.__eq__ equality fails only on
that attribute. -/
theorem C1_amended_replay_determinism {σ π : Type} (type_ : String) (σ0 : σ)
    (freshId freshId2 : Nat) (reg : EventFunctionRegistry σ π)
    (creg : ClassRegistry) (initOp : Op σ π) (ops : List (Op σ π))
    (hreg0 : reg type_ initOp.name = some initOp.body)
    (hcreg : creg type_ = true)
    (hregs : ∀ op ∈ ops, reg type_ op.name = some op.body)
    (hacc : (live_run type_ σ0 freshId initOp ops).2 = true) :
    ∃ r, replay_events reg creg σ0 freshId2
          (Aggregate.collect (live_run type_ σ0 freshId initOp ops).1).1
        = (Except.ok (some r), InitAttr.originalInit)
      ∧ r = { (Aggregate.collect (live_run type_ σ0 freshId initOp ops).1).2 with
              _last_update_date := none } := by
  refine ⟨scrub (live_run type_ σ0 freshId initOp ops).1, ?_, ?_⟩
  · exact replay_of_live type_ σ0 freshId freshId2 reg creg initOp ops
      hreg0 hcreg hregs hacc
  · rfl

/-- C1 witness: the amended theorem at the concrete class A with one
construction event and one mutating operation. -/
theorem C1_amended_replay_determinism_witness :
    ∃ r, replay_events acctReg acctCreg (0 : Int) 99
          (Aggregate.collect (live_run "A" (0 : Int) 7 acctInitOp [acctAddOp]).1).1
        = (Except.ok (some r), InitAttr.originalInit)
      ∧ r = { (Aggregate.collect (live_run "A" (0 : Int) 7 acctInitOp [acctAddOp]).1).2 with
              _last_update_date := none } :=
  C1_amended_replay_determinism "A" (0 : Int) 7 99 acctReg acctCreg acctInitOp [acctAddOp]
    rfl rfl
    (by intro op hop
        rw [List.mem_singleton] at hop
        subst hop
        rfl)
    (by decide)

end Exeventis
